import Mathlib

/-!
Shallow embedding of `src/queryObserver.js` (queryObserverAll / queryObserver).

The document tree is modelled as a value tree of nodes; each node carries a
numeric identity.  The host selector-matching facility is opaque in the
source, so it is modelled by a predicate `sel : Nat → Bool` on element
identities.  The host query primitives (`querySelectorAll`, `querySelector`,
`matches`) are embedded as pre-order traversals, following the host contract
that results come in document order.  The mutation notifier
(`MutationObserver`) is modelled from the external-collaborator contract:
batches of records, each record listing the nodes added at some target node;
records are delivered to a handler only while the observer is connected and
only for targets inside the observed subtree.
-/

/-- A tree node: either an element (with identity and children, in document
order) or a non-element node (text, comment, ...), which the source skips via
its `instanceof Element` check. -/
inductive DNode where
  | elem (id : Nat) (children : List DNode)
  | other (id : Nat)

namespace QueryObserver

mutual
/-- Boolean structural equality on nodes. -/
def nodeEq : DNode → DNode → Bool
  | .elem i cs, .elem j ds => i == j && nodesEq cs ds
  | .other i, .other j => i == j
  | _, _ => false

/-- Boolean structural equality on node lists. -/
def nodesEq : List DNode → List DNode → Bool
  | [], [] => true
  | a :: as, b :: bs => nodeEq a b && nodesEq as bs
  | _, _ => false
end

mutual
theorem nodeEq_iff : ∀ a b : DNode, nodeEq a b = true ↔ a = b
  | .elem i cs, .elem j ds => by
    simp only [nodeEq, Bool.and_eq_true, beq_iff_eq, nodesEq_iff cs ds, DNode.elem.injEq]
  | .elem _ _, .other _ => by simp [nodeEq]
  | .other _, .elem _ _ => by simp [nodeEq]
  | .other i, .other j => by simp [nodeEq]

theorem nodesEq_iff : ∀ as bs : List DNode, nodesEq as bs = true ↔ as = bs
  | [], [] => by simp [nodesEq]
  | [], _ :: _ => by simp [nodesEq]
  | _ :: _, [] => by simp [nodesEq]
  | a :: as, b :: bs => by
    simp only [nodesEq, Bool.and_eq_true, nodeEq_iff a b, nodesEq_iff as bs, List.cons.injEq]
end

instance : DecidableEq DNode := fun a b =>
  decidable_of_iff (nodeEq a b = true) (nodeEq_iff a b)

/-- `node instanceof Element` from the source. -/
def isElem : DNode → Bool
  | .elem _ _ => true
  | .other _ => false

/-- `node.matches(selector)`: the host predicate on an element; non-elements
never match. -/
def dmatches (sel : Nat → Bool) : DNode → Bool
  | .elem i _ => sel i
  | .other _ => false

mutual
/-- All matching elements of the subtree rooted at `n`, root included, in
document (pre-order) order.  `document.querySelectorAll(selector)` is this
traversal applied to the document root. -/
def allMatches (sel : Nat → Bool) : DNode → List DNode
  | .elem i cs => (if sel i then [DNode.elem i cs] else []) ++ allMatchesList sel cs
  | .other _ => []

/-- `allMatches` over a list of sibling subtrees, left to right. -/
def allMatchesList (sel : Nat → Bool) : List DNode → List DNode
  | [] => []
  | n :: ns => allMatches sel n ++ allMatchesList sel ns
end

/-- `node.querySelectorAll(selector)`: matching proper descendants of `n`,
in document order (the root itself is not a candidate). -/
def querySelectorAll (sel : Nat → Bool) : DNode → List DNode
  | .elem _ cs => allMatchesList sel cs
  | .other _ => []

mutual
/-- First matching element of the subtree rooted at `n` (root included) in
document order, found by direct pre-order search; models the host's
"find first match" short-circuit query. -/
def firstMatch (sel : Nat → Bool) : DNode → Option DNode
  | .elem i cs => if sel i then some (DNode.elem i cs) else firstMatchList sel cs
  | .other _ => none

/-- `firstMatch` over sibling subtrees, left to right, stopping at the first
hit. -/
def firstMatchList (sel : Nat → Bool) : List DNode → Option DNode
  | [] => none
  | n :: ns =>
    match firstMatch sel n with
    | some x => some x
    | none => firstMatchList sel ns
end

/-- `node.querySelector(selector)`: first matching proper descendant of `n`
in document order. -/
def querySelector (sel : Nat → Bool) (n : DNode) : Option DNode :=
  match n with
  | .elem _ cs => firstMatchList sel cs
  | .other _ => none

mutual
/-- The host's short-circuit first-match query agrees with the head of the
document-order list of all matches. -/
theorem firstMatch_eq_head (sel : Nat → Bool) :
    ∀ n : DNode, firstMatch sel n = (allMatches sel n).head?
  | .elem i cs => by
    simp only [firstMatch, allMatches]
    split
    · simp
    · rw [firstMatchList_eq_head sel cs]; simp
  | .other i => by simp [firstMatch, allMatches]

/-- List version of `firstMatch_eq_head`. -/
theorem firstMatchList_eq_head (sel : Nat → Bool) :
    ∀ ns : List DNode, firstMatchList sel ns = (allMatchesList sel ns).head?
  | [] => by simp [firstMatchList, allMatchesList]
  | n :: ns => by
    simp only [firstMatchList, allMatchesList]
    rw [firstMatch_eq_head sel n, firstMatchList_eq_head sel ns, List.head?_append]
    cases (allMatches sel n).head? with
    | some x => simp [Option.or]
    | none => simp [Option.or]
end

/-- Number of occurrences of `e` in a list of nodes. -/
def countIn (e : DNode) : List DNode → Nat
  | [] => 0
  | n :: ns => (if n = e then 1 else 0) + countIn e ns

theorem countIn_append (e : DNode) (as bs : List DNode) :
    countIn e (as ++ bs) = countIn e as + countIn e bs := by
  induction as with
  | nil => simp [countIn]
  | cons a as ih => simp [countIn, ih]; omega

mutual
/-- Number of positions in the subtree rooted at `n` (root included) whose
subtree equals `e`. -/
def subtreeCount (e : DNode) : DNode → Nat
  | .elem i cs => (if DNode.elem i cs = e then 1 else 0) + subtreeCountList e cs
  | .other i => if DNode.other i = e then 1 else 0

/-- `subtreeCount` summed over sibling subtrees. -/
def subtreeCountList (e : DNode) : List DNode → Nat
  | [] => 0
  | n :: ns => subtreeCount e n + subtreeCountList e ns
end

mutual
/-- Number of matching elements in the subtree rooted at `n`, root included. -/
def matchCount (sel : Nat → Bool) : DNode → Nat
  | .elem i cs => (if sel i then 1 else 0) + matchCountList sel cs
  | .other _ => 0

/-- `matchCount` summed over sibling subtrees. -/
def matchCountList (sel : Nat → Bool) : List DNode → Nat
  | [] => 0
  | n :: ns => matchCount sel n + matchCountList sel ns
end

mutual
/-- The document-order match list has one entry per matching element. -/
theorem allMatches_length (sel : Nat → Bool) :
    ∀ n : DNode, (allMatches sel n).length = matchCount sel n
  | .elem i cs => by
    simp only [allMatches, matchCount, List.length_append,
      allMatchesList_length sel cs]
    split <;> simp
  | .other i => by simp [allMatches, matchCount]

/-- List version of `allMatches_length`. -/
theorem allMatchesList_length (sel : Nat → Bool) :
    ∀ ns : List DNode, (allMatchesList sel ns).length = matchCountList sel ns
  | [] => by simp [allMatchesList, matchCountList]
  | n :: ns => by
    simp [allMatchesList, matchCountList, allMatches_length sel n,
      allMatchesList_length sel ns]
end

mutual
/-- A node `e` occurs in the document-order match list of `n` once per
occurrence of `e` in the subtree of `n`, provided `e` matches the selector;
a non-matching `e` never occurs. -/
theorem countIn_allMatches (sel : Nat → Bool) (e : DNode) :
    ∀ n : DNode, countIn e (allMatches sel n)
      = if dmatches sel e then subtreeCount e n else 0
  | .elem i cs => by
    simp only [allMatches, countIn_append, subtreeCount,
      countIn_allMatchesList sel e cs]
    by_cases he : DNode.elem i cs = e
    · subst he
      simp only [dmatches, if_pos rfl]
      by_cases hs : sel i = true
      · simp [hs, countIn]
      · simp [hs, countIn]
    · by_cases hs : sel i = true
      · simp only [if_pos hs, countIn, if_neg he]
        split <;> simp
      · simp [if_neg hs, countIn, if_neg he]
  | .other i => by
    cases e with
    | elem j ds => simp [allMatches, countIn, dmatches, subtreeCount]
    | other j => simp [allMatches, countIn, dmatches]

/-- List version of `countIn_allMatches`. -/
theorem countIn_allMatchesList (sel : Nat → Bool) (e : DNode) :
    ∀ ns : List DNode, countIn e (allMatchesList sel ns)
      = if dmatches sel e then subtreeCountList e ns else 0
  | [] => by simp [allMatchesList, countIn, subtreeCountList]
  | n :: ns => by
    simp only [allMatchesList, countIn_append, subtreeCountList,
      countIn_allMatches sel e n, countIn_allMatchesList sel e ns]
    split <;> simp
end

mutual
/-- All node identities in the subtree rooted at `n`, root included. -/
def idsOf : DNode → List Nat
  | .elem i cs => i :: idsOfList cs
  | .other i => [i]

/-- `idsOf` over sibling subtrees. -/
def idsOfList : List DNode → List Nat
  | [] => []
  | n :: ns => idsOf n ++ idsOfList ns
end

/-- Modelled from the spec's external-collaborator contract: the notifier,
registered with `observer.observe(parent, \x7bchildList: true, subtree:
true\x7d)`, delivers a change record to this observer exactly when the
record's target (the node that received the insertion) lies in the observed
subtree. -/
def observes (parent : DNode) (t : Nat) : Bool :=
  (idsOf parent).contains t

/-- One change record of a mutation batch: the target node that received the
insertion, and the inserted subtrees in insertion order.  (In the host,
`mutation.addedNodes` is always a list, so the source's truthiness check on
it always passes.) -/
structure MutationRecord where
  target : Nat
  addedNodes : List DNode

/-- The records of a batch that the notifier delivers to an observer rooted
at `parent` (modelled from the spec's collaborator contract). -/
def deliveredRecords (parent : DNode) (recs : List MutationRecord) :
    List MutationRecord :=
  recs.filter (fun m => observes parent m.target)

/-- Body of queryObserverAll's handler for one added node: skip non-elements;
for an element, compute `children = node.querySelectorAll(selector)`, invoke
the callback on the node itself if `node.matches(selector)`, then on each
entry of `children`.  Returns the callback arguments in invocation order. -/
def allProcessNode (sel : Nat → Bool) : DNode → List DNode
  | .elem i cs =>
    (if sel i then [DNode.elem i cs] else [])
      ++ querySelectorAll sel (DNode.elem i cs)
  | .other _ => []

/-- queryObserverAll's handler over the added nodes of one record, in
insertion order. -/
def allProcessNodes (sel : Nat → Bool) : List DNode → List DNode
  | [] => []
  | n :: ns => allProcessNode sel n ++ allProcessNodes sel ns

/-- queryObserverAll's MutationObserver handler over one delivered batch:
records in delivery order, added nodes in insertion order. -/
def allHandler (sel : Nat → Bool) : List MutationRecord → List DNode
  | [] => []
  | m :: ms => allProcessNodes sel m.addedNodes ++ allHandler sel ms

/-- Body of queryObserver's handler for one added node: skip non-elements;
report the element itself if it matches, else its first matching descendant
via `node.querySelector(selector)`. -/
def firstProcessNode (sel : Nat → Bool) : DNode → Option DNode
  | .elem i cs =>
    if sel i then some (DNode.elem i cs)
    else querySelector sel (DNode.elem i cs)
  | .other _ => none

/-- queryObserver's scan over the added nodes of one record, stopping at the
first hit (the source's `break outer`). -/
def firstProcessNodes (sel : Nat → Bool) : List DNode → Option DNode
  | [] => none
  | n :: ns =>
    match firstProcessNode sel n with
    | some x => some x
    | none => firstProcessNodes sel ns

/-- queryObserver's scan over one delivered batch, records in delivery order,
stopping at the first hit. -/
def firstScan (sel : Nat → Bool) : List MutationRecord → Option DNode
  | [] => none
  | m :: ms =>
    match firstProcessNodes sel m.addedNodes with
    | some x => some x
    | none => firstScan sel ms

/-- Spec-side description of what one inserted node yields for the
FirstMatcher: the node itself when it matches the selector, otherwise its
first matching descendant in document order (head of the document-order
descendant match list), and nothing for a non-element. -/
def specYield (sel : Nat → Bool) : DNode → Option DNode
  | .elem i cs =>
    if sel i then some (DNode.elem i cs) else (allMatchesList sel cs).head?
  | .other _ => none

theorem firstProcessNode_eq_specYield (sel : Nat → Bool) (n : DNode) :
    firstProcessNode sel n = specYield sel n := by
  cases n with
  | elem i cs =>
    simp only [firstProcessNode, specYield, querySelector,
      firstMatchList_eq_head]
  | other i => rfl

theorem firstProcessNodes_eq_findSome (sel : Nat → Bool) (ns : List DNode) :
    firstProcessNodes sel ns = ns.findSome? (specYield sel) := by
  induction ns with
  | nil => simp [firstProcessNodes]
  | cons n ns ih =>
    simp only [firstProcessNodes, firstProcessNode_eq_specYield,
      List.findSome?]
    cases specYield sel n <;> simp [ih]

/-- All added nodes of a batch, records in delivery order, nodes in
insertion order. -/
def allAdded : List MutationRecord → List DNode
  | [] => []
  | m :: ms => m.addedNodes ++ allAdded ms

theorem firstScan_eq_findSome (sel : Nat → Bool) (recs : List MutationRecord) :
    firstScan sel recs = (allAdded recs).findSome? (specYield sel) := by
  induction recs with
  | nil => simp [firstScan, allAdded]
  | cons m ms ih =>
    simp only [firstScan, allAdded, firstProcessNodes_eq_findSome,
      List.findSome?_append]
    cases (m.addedNodes.findSome? (specYield sel)) <;> simp [ih]

/-- External events hitting one subscription after creation: a delivery
moment of the host notifier carrying a batch of change records, or an
invocation of the subscription's cancellation handle. -/
inductive Event where
  | mutate (recs : List MutationRecord)
  | cancel

/-- State of a queryObserverAll subscription: whether its observer is still
connected. -/
def AllSub := Bool

/-- One event against a queryObserverAll subscription.  A delivery reaches
the handler only while the observer is connected, and only the records whose
target lies in the observed subtree are delivered; the handle disconnects
the observer. -/
def allStep (sel : Nat → Bool) (parent : DNode) (connected : Bool) :
    Event → Bool × List DNode
  | .mutate recs =>
    if connected then
      (connected, allHandler sel (deliveredRecords parent recs))
    else (connected, [])
  | .cancel => (false, [])

/-- Fold of `allStep` over an event list, collecting callback arguments. -/
def allRun (sel : Nat → Bool) (parent : DNode) :
    Bool → List Event → List DNode
  | _, [] => []
  | st, e :: es =>
    (allStep sel parent st e).2 ++ allRun sel parent (allStep sel parent st e).1 es

/-- Creation of a queryObserverAll subscription on document `doc`: when
`current` is set, the source pre-scans with `document.querySelectorAll(selector)`
— the whole document, regardless of `parent` — and invokes the callback per
match; then the observer is registered (connected).  Returns (initial state,
pre-scan callback arguments). -/
def queryObserverAllInit (sel : Nat → Bool) (current : Bool) (doc : DNode) :
    Bool × List DNode :=
  (true, if current then allMatches sel doc else [])

/-- State of a queryObserver subscription: whether an observer was registered
at all (`observed`), whether it is still connected, and the local `found`
flag. -/
structure FirstSub where
  observed : Bool
  connected : Bool
  found : Bool
deriving DecidableEq

/-- One event against a queryObserver subscription.  A delivery reaches the
handler only if an observer was registered and is still connected; the
handler does nothing when `found` is already set; otherwise the first hit
sets `found`, disconnects, reports the one callback argument and abandons
the rest of the batch.  The handle disconnects the observer it was returned
for; the pre-resolved handle is `() => \x7b\x7d` and touches nothing. -/
def firstStep (sel : Nat → Bool) (parent : DNode) (st : FirstSub) :
    Event → FirstSub × List DNode
  | .mutate recs =>
    if st.observed && st.connected then
      if st.found then (st, [])
      else
        match firstScan sel (deliveredRecords parent recs) with
        | some x => (⟨st.observed, false, true⟩, [x])
        | none => (st, [])
    else (st, [])
  | .cancel =>
    if st.observed then (⟨st.observed, false, st.found⟩, []) else (st, [])

/-- Fold of `firstStep` over an event list, collecting callback arguments. -/
def firstRun (sel : Nat → Bool) (parent : DNode) :
    FirstSub → List Event → List DNode
  | _, [] => []
  | st, e :: es =>
    (firstStep sel parent st e).2
      ++ firstRun sel parent (firstStep sel parent st e).1 es

/-- Creation of a queryObserver subscription on document `doc`: when
`current` is set, the source pre-scans with `document.querySelector(selector)`
— the whole document, regardless of `parent`.  On a pre-scan hit the
callback runs synchronously, a no-op handle is returned and no observer is
registered; otherwise the observer is registered with `found = false`. -/
def queryObserverInit (sel : Nat → Bool) (current : Bool) (doc : DNode) :
    FirstSub × List DNode :=
  if current then
    match firstMatch sel doc with
    | some n => (⟨false, false, false⟩, [n])
    | none => (⟨true, true, false⟩, [])
  else (⟨true, true, false⟩, [])

/-- Outcome of one delivery to queryObserver's handler when the callback may
raise: resulting state, callback arguments, and whether a raise escaped. -/
structure ExcOutcome where
  st : FirstSub
  out : List DNode
  raised : Bool

/-- One delivery to queryObserver's handler, with the callback allowed to
raise (`throws x = true` means `callback(x)` raises).  The outcome mirrors
the statement order of the source: on a hit, `found = true` and
`observer.disconnect()` execute strictly before `callback(...)`, so the
state transition is complete whether or not the callback raises; the only
statement after the callback is `break outer`, which a raise skips with no
observable difference. -/
def firstDeliverExc (sel : Nat → Bool) (parent : DNode)
    (throws : DNode → Bool) (st : FirstSub) (recs : List MutationRecord) :
    ExcOutcome :=
  if st.observed && st.connected then
    if st.found then ⟨st, [], false⟩
    else
      match firstScan sel (deliveredRecords parent recs) with
      | some x => ⟨⟨st.observed, false, true⟩, [x], throws x⟩
      | none => ⟨st, [], false⟩
  else ⟨st, [], false⟩

/-- A disconnected queryObserverAll subscription never produces a callback
again. -/
theorem allRun_disconnected (sel : Nat → Bool) (parent : DNode) :
    ∀ es : List Event, allRun sel parent false es = []
  | [] => rfl
  | e :: es => by
    cases e with
    | mutate recs =>
      simp [allRun, allStep, allRun_disconnected sel parent es]
    | cancel =>
      simp [allRun, allStep, allRun_disconnected sel parent es]

/-- A queryObserver subscription whose observer is not registered or not
connected produces no callback on any later event. -/
theorem firstRun_inert (sel : Nat → Bool) (parent : DNode) :
    ∀ (st : FirstSub) (es : List Event),
      (st.observed && st.connected) = false → firstRun sel parent st es = []
  | _, [], _ => rfl
  | ⟨o, c, f⟩, e :: es, h => by
    cases e with
    | mutate recs =>
      simp [firstRun, firstStep, h, firstRun_inert sel parent ⟨o, c, f⟩ es h]
    | cancel =>
      cases o with
      | false =>
        simp [firstRun, firstStep, firstRun_inert sel parent ⟨false, c, f⟩ es h]
      | true =>
        simp [firstRun, firstStep,
          firstRun_inert sel parent ⟨true, false, f⟩ es rfl]

/-- Once the found flag is set, no later event produces a callback. -/
theorem firstRun_found (sel : Nat → Bool) (parent : DNode) :
    ∀ (st : FirstSub) (es : List Event),
      st.found = true → firstRun sel parent st es = []
  | _, [], _ => rfl
  | ⟨o, c, f⟩, e :: es, h => by
    cases f
    · exact absurd h (by simp)
    · cases e with
      | mutate recs =>
        by_cases hg : (o && c) = true
        · simp [firstRun, firstStep, hg,
            firstRun_found sel parent ⟨o, c, true⟩ es rfl]
        · simp only [Bool.not_eq_true] at hg
          simp [firstRun, firstStep, hg,
            firstRun_found sel parent ⟨o, c, true⟩ es rfl]
      | cancel =>
        cases o with
        | false =>
          simp [firstRun, firstStep,
            firstRun_found sel parent ⟨false, c, true⟩ es rfl]
        | true =>
          simp [firstRun, firstStep,
            firstRun_found sel parent ⟨true, false, true⟩ es rfl]

/-- Over any event sequence, a queryObserver subscription produces at most
one callback, and none at all unless it is registered, connected and not yet
found. -/
theorem firstRun_length_le (sel : Nat → Bool) (parent : DNode) :
    ∀ (st : FirstSub) (es : List Event),
      (firstRun sel parent st es).length
        ≤ if st.observed && st.connected && !st.found then 1 else 0
  | _, [] => by simp [firstRun]
  | ⟨o, c, f⟩, e :: es => by
    cases e with
    | mutate recs =>
      cases o with
      | false =>
        simpa [firstRun, firstStep]
          using firstRun_length_le sel parent ⟨false, c, f⟩ es
      | true =>
        cases c with
        | false =>
          simpa [firstRun, firstStep]
            using firstRun_length_le sel parent ⟨true, false, f⟩ es
        | true =>
          cases f with
          | true =>
            simp [firstRun, firstStep,
              firstRun_found sel parent ⟨true, true, true⟩ es rfl]
          | false =>
            cases hscan : firstScan sel (deliveredRecords parent recs) with
            | some x =>
              simp [firstRun, firstStep, hscan,
                firstRun_inert sel parent ⟨true, false, true⟩ es rfl]
            | none =>
              simpa [firstRun, firstStep, hscan]
                using firstRun_length_le sel parent ⟨true, true, false⟩ es
    | cancel =>
      cases o with
      | false =>
        simpa [firstRun, firstStep]
          using firstRun_length_le sel parent ⟨false, c, f⟩ es
      | true =>
        simp [firstRun, firstStep,
          firstRun_inert sel parent ⟨true, false, f⟩ es rfl]

/-- Spec-side count of the processed occurrences of `e` contributed by one
added node `n`: one if `n` is `e` itself and matches the selector, plus one
per occurrence of `e` among the matching descendants of `n` (when `e`
matches the selector). -/
def occOfNode (sel : Nat → Bool) (e : DNode) : DNode → Nat
  | .elem i cs =>
    (if DNode.elem i cs = e ∧ sel i = true then 1 else 0)
      + (if dmatches sel e then subtreeCountList e cs else 0)
  | .other _ => 0

/-- `occOfNode` summed over the added nodes of one record. -/
def occInNodes (sel : Nat → Bool) (e : DNode) : List DNode → Nat
  | [] => 0
  | n :: ns => occOfNode sel e n + occInNodes sel e ns

/-- Processed occurrences of `e` over a whole batch. -/
def occCount (sel : Nat → Bool) (e : DNode) : List MutationRecord → Nat
  | [] => 0
  | m :: ms => occInNodes sel e m.addedNodes + occCount sel e ms

theorem countIn_allProcessNode (sel : Nat → Bool) (e n : DNode) :
    countIn e (allProcessNode sel n) = occOfNode sel e n := by
  cases n with
  | elem i cs =>
    simp only [allProcessNode, occOfNode, countIn_append, querySelectorAll,
      countIn_allMatchesList]
    by_cases he : DNode.elem i cs = e
    · by_cases hs : sel i = true
      · simp [he, hs, countIn]
      · simp [he, hs, countIn]
    · by_cases hs : sel i = true
      · simp [countIn, he, hs]
      · simp [countIn, he, hs]
  | other i => simp [allProcessNode, occOfNode, countIn]

theorem countIn_allProcessNodes (sel : Nat → Bool) (e : DNode)
    (ns : List DNode) :
    countIn e (allProcessNodes sel ns) = occInNodes sel e ns := by
  induction ns with
  | nil => simp [allProcessNodes, occInNodes, countIn]
  | cons n ns ih =>
    simp [allProcessNodes, occInNodes, countIn_append,
      countIn_allProcessNode, ih]

/-- C1 (counterexample): the claim says the synchronous pre-scan only ever
reaches elements inside the `parent` subtree.  The source pre-scans with
`document.querySelectorAll` / `document.querySelector`, which search the
whole document: with document `elem 0 [elem 1 [], elem 2 []]`, parent
`elem 2 []` and a selector matching only identity 1, both operations invoke
the pre-scan callback on `elem 1 []`, an element that is not in the parent
subtree. -/
theorem C1_counterexample :
    (queryObserverAllInit (fun i => i == 1) true
        (DNode.elem 0 [DNode.elem 1 [], DNode.elem 2 []])).2
      = [DNode.elem 1 []]
  ∧ (queryObserverInit (fun i => i == 1) true
        (DNode.elem 0 [DNode.elem 1 [], DNode.elem 2 []])).2
      = [DNode.elem 1 []]
  ∧ observes (DNode.elem 2 []) 1 = false := by
  refine ⟨by decide, ?_, by decide⟩
  decide

/-- C1 (amended): with the pre-scan flag set, the pre-scan is document-wide
and independent of the parent: queryObserverAll invokes the callback once
per occurrence of each matching element in the entire document (in document
order), and queryObserver queries for the first match in the entire
document; elements outside the parent subtree can receive pre-scan
callbacks. -/
theorem C1_amended_document_wide_prescan (sel : Nat → Bool) (doc e : DNode) :
    countIn e (queryObserverAllInit sel true doc).2
      = (if dmatches sel e then subtreeCount e doc else 0)
  ∧ (queryObserverInit sel true doc).2 = (allMatches sel doc).head?.toList := by
  constructor
  · simp only [queryObserverAllInit, if_pos trivial, countIn_allMatches]
  · simp only [queryObserverInit, if_pos trivial, firstMatch_eq_head]
    cases (allMatches sel doc).head? <;> simp

/-- C2: over the whole lifetime of a queryObserver subscription — pre-scan
plus any sequence of deliveries and cancellations — the callback runs at
most once; and from any state whose found flag is set, no event sequence
produces a callback. -/
theorem C2_at_most_once (sel : Nat → Bool) (current : Bool)
    (doc parent : DNode) (events es : List Event) (o c : Bool) :
    ((queryObserverInit sel current doc).2
        ++ firstRun sel parent (queryObserverInit sel current doc).1 events).length
      ≤ 1
  ∧ firstRun sel parent ⟨o, c, true⟩ es = [] := by
  refine ⟨?_, firstRun_found sel parent ⟨o, c, true⟩ es rfl⟩
  unfold queryObserverInit
  cases current with
  | false =>
    have := firstRun_length_le sel parent ⟨true, true, false⟩ events
    simp only [Bool.and_self, Bool.not_false] at this
    simpa using this
  | true =>
    cases h : firstMatch sel doc with
    | some n =>
      simp [h, firstRun_inert sel parent ⟨false, false, false⟩ events rfl]
    | none =>
      have := firstRun_length_le sel parent ⟨true, true, false⟩ events
      simp only [Bool.and_self, Bool.not_false] at this
      simpa [h] using this

/-- C3: a batch delivered while found is false, whose inserted nodes (in
mutation delivery order, then insertion order) yield a first hit `x` — the
element itself when it matches, else its first matching descendant in
document order (`specYield`) — makes the handler fire the callback exactly
once, with `x`, and leaves the subscription found and disconnected; the
rest of the batch is abandoned. -/
theorem C3_first_batch_winner (sel : Nat → Bool) (parent : DNode)
    (recs : List MutationRecord) (x : DNode)
    (h : (allAdded (deliveredRecords parent recs)).findSome? (specYield sel)
      = some x) :
    firstStep sel parent ⟨true, true, false⟩ (Event.mutate recs)
      = (⟨true, false, true⟩, [x]) := by
  rw [← firstScan_eq_findSome] at h
  simp [firstStep, h]

/-- Witness for C3 at a concrete input: parent `elem 0 []`, one record
inserting `elem 1 []` at target 0, selector matching identity 1. -/
theorem C3_witness :
    (allAdded (deliveredRecords (DNode.elem 0 [])
        [⟨0, [DNode.elem 1 []]⟩])).findSome? (specYield (fun i => i == 1))
      = some (DNode.elem 1 [])
  ∧ firstStep (fun i => i == 1) (DNode.elem 0 []) ⟨true, true, false⟩
      (Event.mutate [⟨0, [DNode.elem 1 []]⟩])
      = (⟨true, false, true⟩, [DNode.elem 1 []]) :=
  ⟨by decide, C3_first_batch_winner (fun i => i == 1) (DNode.elem 0 [])
    [⟨0, [DNode.elem 1 []]⟩] (DNode.elem 1 []) (by decide)⟩

/-- C4: queryObserverAll's handler processes records in delivery order and
inserted nodes in insertion order; for an inserted element the callback runs
first on the element itself when it matches, then once per matching
descendant in document order, so one inserted element with K matching
descendants yields K invocations plus one more, first, when it matches. -/
theorem C4_all_batch_processing (sel : Nat → Bool) (m : MutationRecord)
    (ms : List MutationRecord) (n : DNode) (ns : List DNode) (i : Nat)
    (cs : List DNode) :
    allHandler sel (m :: ms) = allProcessNodes sel m.addedNodes ++ allHandler sel ms
  ∧ allProcessNodes sel (n :: ns) = allProcessNode sel n ++ allProcessNodes sel ns
  ∧ allProcessNode sel (DNode.elem i cs)
      = (if sel i then [DNode.elem i cs] else []) ++ allMatchesList sel cs
  ∧ (allProcessNode sel (DNode.elem i cs)).length
      = (if sel i then 1 else 0) + matchCountList sel cs := by
  refine ⟨rfl, rfl, rfl, ?_⟩
  simp only [allProcessNode, querySelectorAll, List.length_append,
    allMatchesList_length]
  split <;> simp

/-- C5: invoking queryObserverAll's cancellation handle disconnects the
observer with no callback, and from the disconnected state no sequence of
subsequent deliveries (matching insertions included) ever produces a
callback. -/
theorem C5_cancel_stops_all (sel : Nat → Bool) (parent : DNode) (st : Bool)
    (es : List Event) :
    allStep sel parent st Event.cancel = (false, [])
  ∧ allRun sel parent false es = [] :=
  ⟨rfl, allRun_disconnected sel parent es⟩

/-- C6: for both operations and from any subscription state (before or after
a match or an earlier cancellation), invoking the cancellation handle a
second time yields exactly the state and output of a single invocation, and
an invocation never produces a callback. -/
theorem C6_idempotent_cancel (sel : Nat → Bool) (parent : DNode) (st : Bool)
    (fst : FirstSub) :
    allStep sel parent (allStep sel parent st Event.cancel).1 Event.cancel
      = allStep sel parent st Event.cancel
  ∧ (allStep sel parent st Event.cancel).2 = []
  ∧ firstStep sel parent (firstStep sel parent fst Event.cancel).1 Event.cancel
      = firstStep sel parent fst Event.cancel
  ∧ (firstStep sel parent fst Event.cancel).2 = [] := by
  obtain ⟨o, c, f⟩ := fst
  cases o <;> simp [allStep, firstStep]

/-- C7: when the pre-scan of queryObserver (current = true) finds a match
`n`, the callback argument list of the call is exactly `[n]`, no observer is
ever registered (`observed = false`), the returned handle is a no-op on the
state, and no later event sequence produces a callback. -/
theorem C7_prescan_resolved (sel : Nat → Bool) (doc parent n : DNode)
    (es : List Event) (h : firstMatch sel doc = some n) :
    queryObserverInit sel true doc = (⟨false, false, false⟩, [n])
  ∧ firstStep sel parent ⟨false, false, false⟩ Event.cancel
      = (⟨false, false, false⟩, [])
  ∧ firstRun sel parent ⟨false, false, false⟩ es = [] := by
  refine ⟨?_, rfl, firstRun_inert sel parent ⟨false, false, false⟩ es rfl⟩
  simp [queryObserverInit, h]

/-- Witness for C7 at a concrete input: document `elem 1 []`, selector
matching identity 1, followed by a cancel and a matching insertion. -/
theorem C7_witness :
    firstMatch (fun i => i == 1) (DNode.elem 1 []) = some (DNode.elem 1 [])
  ∧ (queryObserverInit (fun i => i == 1) true (DNode.elem 1 [])
        = (⟨false, false, false⟩, [DNode.elem 1 []])
      ∧ firstStep (fun i => i == 1) (DNode.elem 0 []) ⟨false, false, false⟩
          Event.cancel = (⟨false, false, false⟩, [])
      ∧ firstRun (fun i => i == 1) (DNode.elem 0 []) ⟨false, false, false⟩
          [Event.cancel, Event.mutate [⟨0, [DNode.elem 1 []]⟩]] = []) :=
  ⟨by decide, C7_prescan_resolved (fun i => i == 1) (DNode.elem 1 [])
    (DNode.elem 0 []) (DNode.elem 1 [])
    [Event.cancel, Event.mutate [⟨0, [DNode.elem 1 []]⟩]] (by decide)⟩

/-- C8: an insertion whose target lies outside the observed `parent` subtree
is not delivered to either matcher: for both operations, whatever the
inserted nodes (matching ones included) and the current subscription state,
the event produces no callback and leaves the state unchanged. -/
theorem C8_out_of_scope_insert (sel : Nat → Bool) (parent : DNode) (t : Nat)
    (added : List DNode) (stA : Bool) (stF : FirstSub)
    (h : observes parent t = false) :
    allStep sel parent stA (Event.mutate [⟨t, added⟩]) = (stA, [])
  ∧ firstStep sel parent stF (Event.mutate [⟨t, added⟩]) = (stF, []) := by
  have hdel : deliveredRecords parent [⟨t, added⟩] = [] := by
    simp [deliveredRecords, h]
  constructor
  · cases stA <;> simp [allStep, hdel, allHandler]
  · obtain ⟨o, c, f⟩ := stF
    cases o <;> cases c <;> cases f <;> simp [firstStep, hdel, firstScan]

/-- Witness for C8 at a concrete input: parent `elem 0 []`, insertion of a
matching element at target 5, which is outside the parent subtree. -/
theorem C8_witness :
    observes (DNode.elem 0 []) 5 = false
  ∧ (allStep (fun i => i == 1) (DNode.elem 0 []) true
        (Event.mutate [⟨5, [DNode.elem 1 []]⟩]) = (true, [])
      ∧ firstStep (fun i => i == 1) (DNode.elem 0 []) ⟨true, true, false⟩
          (Event.mutate [⟨5, [DNode.elem 1 []]⟩]) = (⟨true, true, false⟩, [])) :=
  ⟨by decide, C8_out_of_scope_insert (fun i => i == 1) (DNode.elem 0 []) 5
    [DNode.elem 1 []] true ⟨true, true, false⟩ (by decide)⟩

/-- C9: when a delivery to queryObserver's handler invokes the callback, the
found flag and the disconnect have already been performed — the resulting
state is found and disconnected, it does not depend on whether the callback
raises, and from that state no later event sequence produces a callback. -/
theorem C9_state_set_before_callback (sel : Nat → Bool) (parent : DNode)
    (throws : DNode → Bool) (recs : List MutationRecord) (x : DNode)
    (es : List Event)
    (h : (firstDeliverExc sel parent throws ⟨true, true, false⟩ recs).out = [x]) :
    (firstDeliverExc sel parent throws ⟨true, true, false⟩ recs).st
      = ⟨true, false, true⟩
  ∧ (firstDeliverExc sel parent throws ⟨true, true, false⟩ recs).st
      = (firstDeliverExc sel parent (fun _ => false) ⟨true, true, false⟩ recs).st
  ∧ firstRun sel parent ⟨true, false, true⟩ es = [] := by
  refine ⟨?_, ?_, firstRun_inert sel parent ⟨true, false, true⟩ es rfl⟩ <;>
  · cases hscan : firstScan sel (deliveredRecords parent recs) with
    | some y => simp [firstDeliverExc, hscan]
    | none => simp [firstDeliverExc, hscan] at h

/-- Witness for C9 at a concrete input: a raising callback, parent
`elem 0 []`, one in-scope record inserting the matching `elem 1 []`. -/
theorem C9_witness :
    (firstDeliverExc (fun i => i == 1) (DNode.elem 0 []) (fun _ => true)
        ⟨true, true, false⟩ [⟨0, [DNode.elem 1 []]⟩]).out = [DNode.elem 1 []]
  ∧ ((firstDeliverExc (fun i => i == 1) (DNode.elem 0 []) (fun _ => true)
        ⟨true, true, false⟩ [⟨0, [DNode.elem 1 []]⟩]).st = ⟨true, false, true⟩
      ∧ (firstDeliverExc (fun i => i == 1) (DNode.elem 0 []) (fun _ => true)
          ⟨true, true, false⟩ [⟨0, [DNode.elem 1 []]⟩]).st
        = (firstDeliverExc (fun i => i == 1) (DNode.elem 0 [])
            (fun _ => false) ⟨true, true, false⟩
            [⟨0, [DNode.elem 1 []]⟩]).st
      ∧ firstRun (fun i => i == 1) (DNode.elem 0 []) ⟨true, false, true⟩
          [Event.mutate [⟨0, [DNode.elem 1 []]⟩]] = []) :=
  ⟨by decide, C9_state_set_before_callback (fun i => i == 1) (DNode.elem 0 [])
    (fun _ => true) [⟨0, [DNode.elem 1 []]⟩] (DNode.elem 1 [])
    [Event.mutate [⟨0, [DNode.elem 1 []]⟩]] (by decide)⟩

/-- C10: queryObserverAll deduplicates nothing: over any batch, the callback
runs on `e` once per processed occurrence of `e` (as a matching added node
or as a matching descendant of an added node); concretely, one batch whose
record inserts `elem 3 [elem 5 []]` and then `elem 5 []` invokes the
callback twice on `elem 5 []`, and so do two deliveries each inserting
`elem 5 []` on a live subscription. -/
theorem C10_no_dedup (sel : Nat → Bool) (e : DNode)
    (recs : List MutationRecord) :
    countIn e (allHandler sel recs) = occCount sel e recs
  ∧ countIn (DNode.elem 5 []) (allHandler (fun i => i == 5)
      [⟨0, [DNode.elem 3 [DNode.elem 5 []], DNode.elem 5 []]⟩]) = 2
  ∧ countIn (DNode.elem 5 []) (allRun (fun i => i == 5) (DNode.elem 0 []) true
      [Event.mutate [⟨0, [DNode.elem 5 []]⟩],
       Event.mutate [⟨0, [DNode.elem 5 []]⟩]]) = 2 := by
  refine ⟨?_, by decide, by decide⟩
  induction recs with
  | nil => simp [allHandler, occCount, countIn]
  | cons m ms ih =>
    simp [allHandler, occCount, countIn_append, countIn_allProcessNodes, ih]

end QueryObserver
